import Mathlib

/-!
Verification of the WanderGenie backend text pipeline (src/main.py).

The development shallowly embeds the pure algorithmic core of the backend:
the structured-text locator, the malformed-syntax repair rewrites, the
placeholder substitution engine, the template merger, the substitution-set
builder and the result normalizer.  Text is modelled as lists of characters
(the ASCII fragment of Python string semantics; Python whitespace sets and
regex character classes are modelled over ASCII, which covers every input
appearing in the claims).  Exception messages are modelled as strings; the
exact wording of CPython TypeError or AttributeError messages is abridged,
only their distinctness and their being errors matters.
-/

set_option maxRecDepth 20000

namespace WanderGenie

/-- Character lists stand for Python strings. -/
abbrev Chars := List Char

/-- Whitespace characters removed by Python str.strip and matched by the
regex class backslash-s (ASCII fragment). -/
def isPyWs (c : Char) : Bool :=
  c == ' ' || c == '\t' || c == '\n' || c == '\r' || c == '\x0b' || c == '\x0c'

/-- Python str.strip: drop leading and trailing whitespace. -/
def pyStripChars (l : Chars) : Chars :=
  ((l.dropWhile isPyWs).reverse.dropWhile isPyWs).reverse

theorem dropWhile_len_le (p : Char → Bool) (l : Chars) :
    (l.dropWhile p).length ≤ l.length := by
  induction l with
  | nil => simp [List.dropWhile]
  | cons c r ih =>
    simp only [List.dropWhile]
    cases p c
    · simp
    · simp; omega

/-! ## Structured-Text Locator (extract_json_from_model_output) -/

/-- Python str.find: index of the first occurrence of a character, or -1. -/
def pyFind (c : Char) (l : Chars) : Int :=
  match l.findIdx? (fun x => x == c) with
  | some n => (n : Int)
  | none => -1

/-- One iteration of the code-fence stripping loop: if the marker is a
prefix, drop it and strip; if it is then a suffix, drop it and strip. -/
def stripMarker (marker l : Chars) : Chars :=
  let l1 := if marker.isPrefixOf l then pyStripChars (l.drop marker.length) else l
  if marker.isSuffixOf l1 then pyStripChars (l1.take (l1.length - marker.length)) else l1

/-- The fence-stripping loop over the markers triple-backtick-json and
triple-backtick, in that order. -/
def cleanFences (l : Chars) : Chars :=
  stripMarker ("```".data) (stripMarker ("```json".data) l)

/-- The delimiter scan of extract_json_from_model_output: push on opening
braces and brackets, pop on closing ones (ignoring a closer when the stack
is empty), and report the position where the stack first returns to empty. -/
def scanEnd (l : Chars) (stack : Chars) (i : Nat) : Option Nat :=
  match l with
  | [] => none
  | c :: rest =>
    if c == '{' || c == '[' then scanEnd rest (c :: stack) (i + 1)
    else if c == '}' || c == ']' then
      match stack with
      | [] => scanEnd rest [] (i + 1)
      | _ :: t => if t.isEmpty then some i else scanEnd rest t (i + 1)
    else scanEnd rest stack (i + 1)

/-- extract_json_from_model_output: strip, remove code fences, start at
max(find of open brace, find of open bracket) and depth-match forward. -/
def extractJson (raw : Chars) : Chars :=
  if raw.isEmpty then []
  else
    let cleaned := cleanFences (pyStripChars raw)
    let start := max (pyFind '{' cleaned) (pyFind '[' cleaned)
    if start == -1 then cleaned
    else
      let s := start.toNat
      match scanEnd (cleaned.drop s) [] 0 with
      | some i => (cleaned.drop s).take (i + 1)
      | none => cleaned.drop s

/-- The locator-correctness test input from the specification. -/
def c1Raw : Chars :=
  "here is json ```json\n\x7b\"a\":[1,\x7b\"b\":2\x7d]\x7d\n```\nthanks".data

/-- The truncation test input from the specification. -/
def c4Raw : Chars := "\x7b\"a\": [1, 2".data

/-- Claim C1: the locator is claimed to begin extraction at the earliest
opening brace or bracket and to return the whole nested object on the
specification test input.  The code instead starts at the later of the
first brace and the first bracket (max of the two finds), so on this input
it returns the inner array, not the object the claim requires. -/
theorem C1_locator_start_divergence :
    extractJson c1Raw = "[1,\x7b\"b\":2\x7d]".data ∧
    extractJson c1Raw ≠ "\x7b\"a\":[1,\x7b\"b\":2\x7d]\x7d".data := by
  decide

/-- Claim C4: on truncated output the locator is claimed to return the tail
fragment starting at the opening brace.  Because the start index is the max
of the first-brace and first-bracket positions, the code returns the tail
starting at the bracket instead. -/
theorem C4_locator_truncation_divergence :
    extractJson c4Raw = "[1, 2".data ∧ extractJson c4Raw ≠ c4Raw := by
  decide

/-! ## Malformed-Syntax Repair (fix_json) -/

/-- First character of a regex identifier token: letter or underscore. -/
def isIdentStart (c : Char) : Bool := c.isAlpha || c == '_'

/-- Subsequent character of a regex identifier token. -/
def isIdentChar (c : Char) : Bool := c.isAlpha || c.isDigit || c == '_'

/-- Attempt to match, after an opening brace or comma, the remainder of the
bare-key pattern: whitespace, an identifier, whitespace, then a colon.
Returns the three captured pieces and the rest of the input after the
colon.  Maximal munch coincides with the regex because the character
classes of adjacent pieces are disjoint. -/
def afterKey (l : Chars) : Option (Chars × Chars × Chars × Chars) :=
  match l.dropWhile isPyWs with
  | [] => none
  | i :: r2 =>
    if isIdentStart i then
      match (r2.dropWhile isIdentChar).dropWhile isPyWs with
      | ':' :: r5 =>
        some (l.takeWhile isPyWs, i :: r2.takeWhile isIdentChar,
              (r2.dropWhile isIdentChar).takeWhile isPyWs, r5)
      | _ => none
    else none

theorem afterKey_len {l a b c d} (h : afterKey l = some (a, b, c, d)) :
    d.length < l.length := by
  unfold afterKey at h
  split at h
  · exact absurd h (by simp)
  next i r2 hdrop =>
    have h1 : r2.length < l.length := by
      have := dropWhile_len_le isPyWs l
      rw [hdrop] at this
      simp at this
      omega
    split at h
    · split at h
      next r5 hdrop2 =>
        have h2 : r5.length < r2.length := by
          have ha := dropWhile_len_le isIdentChar r2
          have hb := dropWhile_len_le isPyWs (r2.dropWhile isIdentChar)
          rw [hdrop2] at hb
          simp at hb
          omega
        simp only [Option.some.injEq, Prod.mk.injEq] at h
        obtain ⟨-, -, -, h4⟩ := h
        subst h4
        omega
      · exact absurd h (by simp)
    · exact absurd h (by simp)

/-- The bare-key quoting rewrite of fix_json: at each position, if an
opening brace or comma begins the bare-key pattern, wrap the identifier in
double quotes and resume scanning after the colon (the match is consumed);
otherwise emit the character and advance one position, exactly as re.sub
scans.  Fuel-indexed so that it reduces in the kernel; every recursive
step consumes at least one input character and one unit of fuel
(afterKey_len records the consumption), so the wrapper fuel of the input
length never runs out. -/
def subst1F : Nat → Chars → Chars
  | _, [] => []
  | 0, c :: rest => c :: rest
  | fuel + 1, c :: rest =>
    if c == '{' || c == ',' then
      match afterKey rest with
      | some (ws1, ident, ws2, r5) =>
        c :: (ws1 ++ '"' :: (ident ++ '"' :: (ws2 ++ ':' :: subst1F fuel r5)))
      | none => c :: subst1F fuel rest
    else c :: subst1F fuel rest

/-- Bare-key quoting at the natural fuel. -/
def subst1 (l : Chars) : Chars := subst1F l.length l

/-- Scanner for the bare-key pattern: true when the pattern matches at some
position of the input. -/
def hasPattern1 (l : Chars) : Bool :=
  match l with
  | [] => false
  | c :: rest =>
    ((c == '{' || c == ',') && (afterKey rest).isSome) || hasPattern1 rest

/-- Attempt to match, after a comma, the remainder of the trailing-comma
pattern: whitespace then a closing brace or bracket.  Returns the closer,
the whitespace and the rest after the closer. -/
def tailComma (l : Chars) : Option (Char × Chars × Chars) :=
  match l.dropWhile isPyWs with
  | b :: r2 =>
    if b == '}' || b == ']' then some (b, l.takeWhile isPyWs, r2) else none
  | [] => none

theorem tailComma_len {l b w r} (h : tailComma l = some (b, w, r)) :
    r.length < l.length := by
  unfold tailComma at h
  split at h
  next b2 r2 hdrop =>
    have h1 : r2.length < l.length := by
      have := dropWhile_len_le isPyWs l
      rw [hdrop] at this
      simp at this
      omega
    split at h
    · simp only [Option.some.injEq, Prod.mk.injEq] at h
      obtain ⟨-, -, h3⟩ := h
      subst h3
      omega
    · exact absurd h (by simp)
  · exact absurd h (by simp)

/-- The trailing-comma removal rewrite of fix_json: a comma followed by
optional whitespace and a closing brace or bracket is replaced by just the
closer (the whitespace is dropped with the comma, as the regex replacement
keeps only the captured group).  Fuel-indexed like subst1F; tailComma_len
records that a fired match consumes input, so the wrapper fuel suffices. -/
def subst2F : Nat → Chars → Chars
  | _, [] => []
  | 0, c :: rest => c :: rest
  | fuel + 1, c :: rest =>
    if c == ',' then
      match tailComma rest with
      | some (b, _, r2) => b :: subst2F fuel r2
      | none => c :: subst2F fuel rest
    else c :: subst2F fuel rest

/-- Trailing-comma removal at the natural fuel. -/
def subst2 (l : Chars) : Chars := subst2F l.length l

/-- Scanner for the trailing-comma pattern. -/
def hasPattern2 (l : Chars) : Bool :=
  match l with
  | [] => false
  | c :: rest => ((c == ',') && (tailComma rest).isSome) || hasPattern2 rest

/-- fix_json: the bare-key rewrite followed by the trailing-comma rewrite,
each applied once, in that order. -/
def fixJson (l : Chars) : Chars := subst2 (subst1 l)

theorem subst1F_id_of_no_pattern (fuel : Nat) :
    ∀ l : Chars, hasPattern1 l = false → subst1F fuel l = l := by
  induction fuel with
  | zero => intro l _; cases l <;> rfl
  | succ n ih =>
    intro l h
    cases l with
    | nil => rfl
    | cons c rest =>
      rw [hasPattern1] at h
      simp only [Bool.or_eq_false_iff, Bool.and_eq_false_iff] at h
      obtain ⟨h1, h2⟩ := h
      rw [subst1F]
      rcases h1 with h1 | h1
      · rw [if_neg (by simp [h1])]
        rw [ih rest h2]
      · split
        · split
          next heq => rw [heq] at h1; simp at h1
          · rw [ih rest h2]
        · rw [ih rest h2]

theorem subst1_id_of_no_pattern (l : Chars) (h : hasPattern1 l = false) :
    subst1 l = l :=
  subst1F_id_of_no_pattern l.length l h

theorem subst2F_id_of_no_pattern (fuel : Nat) :
    ∀ l : Chars, hasPattern2 l = false → subst2F fuel l = l := by
  induction fuel with
  | zero => intro l _; cases l <;> rfl
  | succ n ih =>
    intro l h
    cases l with
    | nil => rfl
    | cons c rest =>
      rw [hasPattern2] at h
      simp only [Bool.or_eq_false_iff, Bool.and_eq_false_iff] at h
      obtain ⟨h1, h2⟩ := h
      rw [subst2F]
      rcases h1 with h1 | h1
      · rw [if_neg (by simp [h1])]
        rw [ih rest h2]
      · split
        · split
          next heq => rw [heq] at h1; simp at h1
          · rw [ih rest h2]
        · rw [ih rest h2]

theorem subst2_id_of_no_pattern (l : Chars) (h : hasPattern2 l = false) :
    subst2 l = l :=
  subst2F_id_of_no_pattern l.length l h

/-! ## A strict JSON validity checker

Modelled from the claim wording: a string counts as already-valid JSON
text when strict parsing (json.loads) accepts it.  The checker below is a
standard recursive-descent JSON recognizer used only to certify concrete
inputs of theorems, never as a stand-in for the repository code. -/

/-- JSON structural whitespace. -/
def isJsonWs (c : Char) : Bool := c == ' ' || c == '\t' || c == '\n' || c == '\r'

/-- Skip JSON structural whitespace. -/
def skipWsJ (l : Chars) : Chars := l.dropWhile isJsonWs

/-- Hexadecimal digit test for unicode escapes. -/
def isHexDig (c : Char) : Bool :=
  c.isDigit || ('a' ≤ c && c ≤ 'f') || ('A' ≤ c && c ≤ 'F')

/-- Recognize the remainder of a JSON string literal after its opening
quote, returning the input after the closing quote. -/
def parseStrRest (l : Chars) : Option Chars :=
  match l with
  | [] => none
  | '"' :: r => some r
  | '\\' :: e :: r =>
    if e == 'u' then
      match r with
      | a :: b :: c :: d :: r2 =>
        if isHexDig a && isHexDig b && isHexDig c && isHexDig d
        then parseStrRest r2 else none
      | _ => none
    else if e == '"' || e == '\\' || e == '/' || e == 'b' || e == 'f'
            || e == 'n' || e == 'r' || e == 't'
    then parseStrRest r else none
  | c :: r => if c.toNat < 0x20 then none else parseStrRest r

/-- Recognize the integer part of a JSON number (no leading zeros). -/
def parseIntPart (l : Chars) : Option Chars :=
  match l with
  | '0' :: r => some r
  | c :: r => if c.isDigit then some (r.dropWhile Char.isDigit) else none
  | [] => none

/-- Recognize an optional JSON fraction part. -/
def parseFrac (l : Chars) : Option Chars :=
  match l with
  | '.' :: r =>
    match r.takeWhile Char.isDigit with
    | [] => none
    | _ => some (r.dropWhile Char.isDigit)
  | _ => some l

/-- Recognize an optional JSON exponent part. -/
def parseExpPart (l : Chars) : Option Chars :=
  match l with
  | c :: r =>
    if c == 'e' || c == 'E' then
      let r2 := match r with
                | s :: r3 => if s == '+' || s == '-' then r3 else r
                | [] => r
      match r2.takeWhile Char.isDigit with
      | [] => none
      | _ => some (r2.dropWhile Char.isDigit)
    else some l
  | [] => some l

/-- Recognize a JSON number. -/
def parseNum (l : Chars) : Option Chars :=
  let l1 := match l with
            | '-' :: r => r
            | _ => l
  match parseIntPart l1 with
  | none => none
  | some r =>
    match parseFrac r with
    | none => none
    | some r2 => parseExpPart r2

mutual

/-- Recognize a JSON value (fuel-indexed recursive descent). -/
def parseVal : Nat → Chars → Option Chars
  | 0, _ => none
  | fuel + 1, l =>
    match skipWsJ l with
    | 't' :: 'r' :: 'u' :: 'e' :: r => some r
    | 'f' :: 'a' :: 'l' :: 's' :: 'e' :: r => some r
    | 'n' :: 'u' :: 'l' :: 'l' :: r => some r
    | '"' :: r => parseStrRest r
    | '{' :: r =>
      (match skipWsJ r with
       | '}' :: r2 => some r2
       | _ => parseMembers fuel r)
    | '[' :: r =>
      (match skipWsJ r with
       | ']' :: r2 => some r2
       | _ => parseElems fuel r)
    | c :: r => if c == '-' || c.isDigit then parseNum (c :: r) else none
    | [] => none

/-- Recognize the nonempty member list of a JSON object, including its
closing brace. -/
def parseMembers : Nat → Chars → Option Chars
  | 0, _ => none
  | fuel + 1, l =>
    match skipWsJ l with
    | '"' :: r =>
      (match parseStrRest r with
       | some r2 =>
         (match skipWsJ r2 with
          | ':' :: r3 =>
            (match parseVal fuel r3 with
             | some r4 =>
               (match skipWsJ r4 with
                | ',' :: r5 => parseMembers fuel r5
                | '}' :: r5 => some r5
                | _ => none)
             | none => none)
          | _ => none)
       | none => none)
    | _ => none

/-- Recognize the nonempty element list of a JSON array, including its
closing bracket. -/
def parseElems : Nat → Chars → Option Chars
  | 0, _ => none
  | fuel + 1, l =>
    match parseVal fuel l with
    | some r =>
      (match skipWsJ r with
       | ',' :: r2 => parseElems fuel r2
       | ']' :: r2 => some r2
       | _ => none)
    | none => none

end

/-- A string is valid JSON text when a full value parses and only
whitespace remains. -/
def jsonValid (l : Chars) : Bool :=
  match parseVal (l.length + 1) l with
  | some r => (skipWsJ r).isEmpty
  | none => false

/-- A valid JSON text containing a key-shaped token inside a quoted string
value. -/
def c3Cex : Chars := "\x7b\"a\": \"x, note: y\"\x7d".data

/-- Claim C3 counterexample: fix_json is claimed to return every already
valid JSON text byte-identically, never quoting tokens inside quoted
string values.  This valid JSON input contains the text comma-space-note-
colon inside a string value, and the bare-key rewrite quotes it, changing
the text. -/
theorem C3_repair_not_identity_on_valid_json :
    jsonValid c3Cex = true ∧ fixJson c3Cex ≠ c3Cex := by
  decide

/-- Claim C3 (amended): fix_json returns the byte-identical string for
every input in which neither rewrite pattern occurs anywhere, including
inside quoted string values; quote-context is not tracked, so valid JSON
whose string values contain a key-shaped or trailing-comma-shaped token is
rewritten. -/
theorem C3_repair_identity_when_pattern_free (l : Chars)
    (h1 : hasPattern1 l = false) (h2 : hasPattern2 l = false) :
    fixJson l = l := by
  unfold fixJson
  rw [subst1_id_of_no_pattern l h1, subst2_id_of_no_pattern l h2]

/-- A valid JSON text free of both rewrite patterns. -/
def c3Wit : Chars := "\x7b\"a\": [1, 2], \"b\": \x7b\"c\": \"x\"\x7d\x7d".data

/-- Witness for the amended C3 theorem at a concrete valid JSON input. -/
theorem C3_repair_identity_witness :
    hasPattern1 c3Wit = false ∧ hasPattern2 c3Wit = false ∧
    jsonValid c3Wit = true ∧ fixJson c3Wit = c3Wit :=
  ⟨by decide, by decide, by decide,
   C3_repair_identity_when_pattern_free c3Wit (by decide) (by decide)⟩

/-! ## Placeholder Substitution Engine (build_master_prompt, per part)

The primary strategy is Python str.format with keyword arguments.  The
embedding models simple replacement fields (an identifier between single
braces) and the double-brace escapes; conversion or format-spec fields,
which no template in this repository uses, are modelled as formatting
failures and thus route to the same literal-replacement fallback as any
genuine formatting error. -/

/-- Whether a replacement field is a plain identifier. -/
def fieldOk (f : Chars) : Bool :=
  match f with
  | [] => false
  | c :: r => isIdentStart c && r.all isIdentChar

/-- Keyword lookup in the substitution set (mapping order preserved). -/
def lookupRepl (repl : List (Chars × Chars)) (k : Chars) : Option Chars :=
  match repl with
  | [] => none
  | (k2, v) :: r => if k2 = k then some v else lookupRepl r k

/-- Python str.format on keyword arguments, fuel-indexed: double braces
are escapes, a simple identifier field is replaced by its value or raises
a key error, and stray or unmatched single braces raise a value error.
Every recursive step consumes input, so the wrapper fuel of the input
length never runs out. -/
def pyFormatF (repl : List (Chars × Chars)) : Nat → Chars → Except String Chars
  | _, [] => .ok []
  | 0, c :: rest => .ok (c :: rest)
  | fuel + 1, '{' :: '{' :: rest =>
    (match pyFormatF repl fuel rest with
     | .ok s => .ok ('{' :: s)
     | .error e => .error e)
  | fuel + 1, '}' :: '}' :: rest =>
    (match pyFormatF repl fuel rest with
     | .ok s => .ok ('}' :: s)
     | .error e => .error e)
  | _ + 1, '}' :: _ => .error "Single closing brace encountered in format string"
  | fuel + 1, '{' :: rest =>
    (match rest.dropWhile (fun x => !(x == '}')) with
     | '}' :: r2 =>
       if fieldOk (rest.takeWhile (fun x => !(x == '}'))) then
         match lookupRepl repl (rest.takeWhile (fun x => !(x == '}'))) with
         | some v =>
           (match pyFormatF repl fuel r2 with
            | .ok s => .ok (v ++ s)
            | .error e => .error e)
         | none => .error "KeyError"
       else .error "unsupported replacement field"
     | _ => .error "Single opening brace encountered in format string")
  | fuel + 1, c :: rest =>
    (match pyFormatF repl fuel rest with
     | .ok s => .ok (c :: s)
     | .error e => .error e)

/-- Python str.format at the natural fuel. -/
def pyFormat (repl : List (Chars × Chars)) (l : Chars) : Except String Chars :=
  pyFormatF repl l.length l

/-- Whether the pattern occurs as a contiguous substring. -/
def containsPat (pat : Chars) : Chars → Bool
  | [] => pat.isEmpty
  | c :: rest => pat.isPrefixOf (c :: rest) || containsPat pat rest

/-- Python str.replace for a nonempty pattern: scan left to right,
replacing non-overlapping occurrences.  Fuel-indexed; each step consumes
at least one input character. -/
def replaceCoreF (pat rep : Chars) : Nat → Chars → Chars
  | _, [] => []
  | 0, c :: rest => c :: rest
  | fuel + 1, c :: rest =>
    if pat.isPrefixOf (c :: rest) && !pat.isEmpty then
      rep ++ replaceCoreF pat rep fuel (rest.drop (pat.length - 1))
    else c :: replaceCoreF pat rep fuel rest

/-- Python str.replace; the empty-pattern case interleaves the replacement
as CPython does (never reached by the fallback, whose patterns start with
an opening brace). -/
def replaceAll (s pat rep : Chars) : Chars :=
  if pat.isEmpty then rep ++ s.flatMap (fun c => c :: rep)
  else replaceCoreF pat rep s.length s

/-- The literal-replacement fallback loop of build_master_prompt: for each
key in mapping order, replace the brace-wrapped key by its value. -/
def fallbackRender (repl : List (Chars × Chars)) (txt : Chars) : Chars :=
  repl.foldl (fun acc kv => replaceAll acc ('{' :: (kv.1 ++ ['}'])) kv.2) txt

/-- Rendering of one prompt part: structured formatting, falling back to
literal replacement when formatting raises. -/
def renderPart (repl : List (Chars × Chars)) (txt : Chars) : Chars :=
  match pyFormat repl txt with
  | .ok s => s
  | .error _ => fallbackRender repl txt

theorem replaceCoreF_id (pat rep : Chars) (fuel : Nat) :
    ∀ l : Chars, containsPat pat l = false → replaceCoreF pat rep fuel l = l := by
  induction fuel with
  | zero => intro l _; cases l <;> rfl
  | succ n ih =>
    intro l h
    cases l with
    | nil => rfl
    | cons c rest =>
      rw [containsPat] at h
      simp only [Bool.or_eq_false_iff] at h
      obtain ⟨h1, h2⟩ := h
      rw [replaceCoreF, if_neg (by simp [h1])]
      rw [ih rest h2]

theorem containsPat_false_nonempty {pat l : Chars} (h : containsPat pat l = false) :
    pat.isEmpty = false := by
  cases l with
  | nil => rw [containsPat] at h; exact h
  | cons c rest =>
    rw [containsPat] at h
    simp only [Bool.or_eq_false_iff] at h
    cases pat with
    | nil => simp [List.isPrefixOf] at h
    | cons p pr => rfl

theorem replaceAll_id {s pat : Chars} (rep : Chars) (h : containsPat pat s = false) :
    replaceAll s pat rep = s := by
  unfold replaceAll
  rw [if_neg (by simp [containsPat_false_nonempty h])]
  exact replaceCoreF_id pat rep s.length s h

theorem fallbackRender_id :
    ∀ (repl : List (Chars × Chars)) (txt : Chars),
      (∀ kv ∈ repl, containsPat ('{' :: (kv.1 ++ ['}'])) txt = false) →
      fallbackRender repl txt = txt := by
  intro repl
  induction repl with
  | nil => intro txt _; rfl
  | cons kv r ih =>
    intro txt h
    have hhd := h kv (by simp)
    have htl : ∀ kv2 ∈ r, containsPat ('{' :: (kv2.1 ++ ['}'])) txt = false := by
      intro kv2 hm
      exact h kv2 (by simp [hm])
    unfold fallbackRender at *
    simp only [List.foldl_cons]
    rw [replaceAll_id kv.2 hhd]
    exact ih txt htl

/-- Claim C7: the substitution engine always returns a string; when
structured formatting fails it equals the literal-replacement fallback
over every key in mapping order, and a template containing no key
placeholder at all is returned verbatim, stray braces intact.  The closed
conjunct shows a mixed template: the known key is replaced while the
unknown placeholder and the stray brace survive unchanged. -/
theorem C7_substitution_fallback_never_fails :
    (∀ (txt : Chars) (repl : List (Chars × Chars)) (e : String),
      pyFormat repl txt = .error e →
      renderPart repl txt = fallbackRender repl txt ∧
      ((∀ kv ∈ repl, containsPat ('{' :: (kv.1 ++ ['}'])) txt = false) →
        renderPart repl txt = txt)) ∧
    renderPart [("days".data, "3".data)]
        "a \x7bdays\x7d b \x7bunknown\x7d \x7b".data =
      "a 3 b \x7bunknown\x7d \x7b".data := by
  constructor
  · intro txt repl e h
    constructor
    · simp [renderPart, h]
    · intro hall
      simp [renderPart, h]
      exact fallbackRender_id repl txt hall
  · decide

/-- Witness for C7 at a concrete template whose formatting fails and whose
placeholders match no key: the engine returns the template verbatim. -/
theorem C7_substitution_witness :
    renderPart [("days".data, "3".data)] "hi \x7bunknown\x7d and \x7b".data =
      "hi \x7bunknown\x7d and \x7b".data :=
  (C7_substitution_fallback_never_fails.1 "hi \x7bunknown\x7d and \x7b".data
    [("days".data, "3".data)] "KeyError" (by rfl)).2 (by decide)

/-! ## Template Merger (build_master_prompt) -/

/-- A prompt part as stored by the fragment store: an ordinal and a body. -/
structure PromptPart where
  part_id : Int
  text : Chars

/-- Insertion into an ascending-by-ordinal list (stable). -/
def insertPart (p : PromptPart) : List PromptPart → List PromptPart
  | [] => [p]
  | q :: rest =>
    if p.part_id ≤ q.part_id then p :: q :: rest else q :: insertPart p rest

/-- The ascending part_id sort performed by get_prompt_parts. -/
def sortParts (l : List PromptPart) : List PromptPart := l.foldr insertPart []

/-- The blank-line separator between rendered fragments. -/
def nlnl : Chars := '\n' :: '\n' :: []

/-- Join rendered fragments with one blank line between consecutive ones. -/
def joinBlank : List Chars → Chars
  | [] => []
  | [x] => x
  | x :: rest => x ++ nlnl ++ joinBlank rest

/-- The configuration error raised when no prompt parts are seeded. -/
def noPartsMsg : String := "No prompt parts found in DB. Seed the 4 prompt parts first."

/-- build_master_prompt: fail on an empty collection, otherwise sort by
ordinal, render each part, strip each rendering, and join with blank
lines. -/
def buildMasterPrompt (parts : List PromptPart) (repl : List (Chars × Chars)) :
    Except String Chars :=
  if parts.isEmpty then .error noPartsMsg
  else .ok (joinBlank ((sortParts parts).map (fun p => pyStripChars (renderPart repl p.text))))

/-- Claim C8: an empty fragment collection fails with the no-fragments
configuration error; fragments supplied in ordinal order 3, 1, 2 are
rendered, stripped, and joined with exactly one blank line in ascending
ordinal order 1, 2, 3. -/
theorem C8_merger_sort_and_join :
    (∀ repl : List (Chars × Chars), buildMasterPrompt [] repl = .error noPartsMsg) ∧
    (∀ (repl : List (Chars × Chars)) (p1 p2 p3 : PromptPart),
      p1.part_id < p2.part_id → p2.part_id < p3.part_id →
      buildMasterPrompt [p3, p1, p2] repl =
        .ok (pyStripChars (renderPart repl p1.text) ++ nlnl ++
             (pyStripChars (renderPart repl p2.text) ++ nlnl ++
              pyStripChars (renderPart repl p3.text)))) := by
  constructor
  · intro repl; rfl
  · intro repl p1 p2 p3 h1 h2
    have e1 : insertPart p1 (insertPart p2 []) = [p1, p2] := by
      simp only [insertPart]
      rw [if_pos (le_of_lt h1)]
    have e2 : insertPart p3 [p1, p2] = [p1, p2, p3] := by
      simp only [insertPart]
      rw [if_neg (by omega), if_neg (by omega)]
    have hs : sortParts [p3, p1, p2] = [p1, p2, p3] := by
      unfold sortParts
      simp only [List.foldr]
      rw [e1, e2]
    unfold buildMasterPrompt
    rw [if_neg (by simp), hs]
    rfl

/-- Witness for C8 at three concrete fragments with ordinals 3, 1, 2. -/
theorem C8_merger_witness :
    buildMasterPrompt [⟨3, "c".data⟩, ⟨1, "a".data⟩, ⟨2, "b".data⟩] [] =
      .ok "a\n\nb\n\nc".data := by
  have h := C8_merger_sort_and_join.2 [] ⟨1, "a".data⟩ ⟨2, "b".data⟩ ⟨3, "c".data⟩
    (by decide) (by decide)
  rw [h]
  rfl

/-! ## Substitution Set construction (build_master_prompt, replacements)

Request fields typed Optional in the pydantic model are Option values:
none models an explicit JSON null, and an omitted field arrives as the
declared default (some of the empty string or the empty list). -/

/-- The trip-parameter request (ItineraryRequest). -/
structure TripRequest where
  from_location : String
  specific_places : Option String
  categories : Option (List String)
  days : Int
  currency : String
  budget : Option String
  intent : Option (List String)
  group : Option String
  stay : Option String
  notes : Option String

/-- Python x or empty-string for an optional string (None and the empty
string are both falsy and both yield the empty string). -/
def pyOrEmpty (o : Option String) : String :=
  match o with
  | some s => s
  | none => ""

/-- Python str() applied to an optional string: None prints as the text
None. -/
def pyStrOfOptStr (o : Option String) : String :=
  match o with
  | some s => s
  | none => "None"

/-- Comma-space join of a string list. -/
def joinComma (l : List String) : String := String.intercalate ", " l

/-- The conditional join: a truthy list is comma-joined, a falsy value
(None or the empty list) yields the empty string. -/
def joinIfTruthy (o : Option (List String)) : String :=
  match o with
  | some (x :: xs) => joinComma (x :: xs)
  | _ => ""

/-- The trip_type value: first intent if the intent list is truthy,
otherwise the word general. -/
def firstIntent (o : Option (List String)) : String :=
  match o with
  | some (x :: _) => x
  | _ => "general"

/-- Python str.strip on String values. -/
def pyStripStr (s : String) : String := String.mk (pyStripChars s.data)

/-- build_location_fallback: the stripped specific places when truthy,
else the comma-joined categories when truthy, else empty. -/
def buildLocationFallback (sp : Option String) (cats : Option (List String)) : String :=
  let s := pyStripStr (pyOrEmpty sp)
  if s.data.isEmpty then
    match cats with
    | some (x :: xs) => joinComma (x :: xs)
    | _ => ""
  else s

/-- The replacements dictionary of build_master_prompt, in insertion
order. -/
def buildReplacements (u : TripRequest) : List (String × String) :=
  [("from_location", u.from_location),
   ("specific_location", buildLocationFallback u.specific_places u.categories),
   ("categories", joinIfTruthy u.categories),
   ("days", toString u.days),
   ("currency", u.currency),
   ("budget", pyStrOfOptStr u.budget),
   ("intent", joinIfTruthy u.intent),
   ("group", pyOrEmpty u.group),
   ("stay", pyOrEmpty u.stay),
   ("notes", pyOrEmpty u.notes),
   ("trip_type", firstIntent u.intent)]

/-- A request whose optional fields are all explicitly null. -/
def c9Req : TripRequest :=
  { from_location := "Delhi", specific_places := none, categories := none,
    days := 3, currency := "INR", budget := none, intent := none,
    group := none, stay := none, notes := none }

/-- Claim C9 counterexample: the claim renders every absent optional
field, including an explicitly null budget, as the empty string; the code
applies str() to the budget, so an explicitly null budget is rendered as
the four-character text None. -/
theorem C9_null_budget_renders_None :
    (buildReplacements c9Req).lookup "budget" = some "None" ∧
    ("None" : String) ≠ "" := by
  decide

/-- Claim C9 (amended): every substitution value is a string; list-valued
fields are comma-joined when truthy; a null or empty categories or intent
list, and a null group, stay or notes, render as the empty string — but a
null budget renders as the text None, since it alone is stringified with
str() rather than guarded by an or-empty default. -/
theorem C9_replacements_stringified :
    (∀ u : TripRequest, u.categories = none → u.budget = none →
      u.intent = none → u.group = none → u.stay = none → u.notes = none →
      buildReplacements u =
        [("from_location", u.from_location),
         ("specific_location", buildLocationFallback u.specific_places none),
         ("categories", ""),
         ("days", toString u.days),
         ("currency", u.currency),
         ("budget", "None"),
         ("intent", ""),
         ("group", ""),
         ("stay", ""),
         ("notes", ""),
         ("trip_type", "general")]) ∧
    (∀ (u : TripRequest) (c i : String) (cs is : List String),
      u.categories = some (c :: cs) → u.intent = some (i :: is) →
      buildReplacements u =
        [("from_location", u.from_location),
         ("specific_location", buildLocationFallback u.specific_places (some (c :: cs))),
         ("categories", joinComma (c :: cs)),
         ("days", toString u.days),
         ("currency", u.currency),
         ("budget", pyStrOfOptStr u.budget),
         ("intent", joinComma (i :: is)),
         ("group", pyOrEmpty u.group),
         ("stay", pyOrEmpty u.stay),
         ("notes", pyOrEmpty u.notes),
         ("trip_type", i)]) := by
  constructor
  · intro u h1 h2 h3 h4 h5 h6
    simp [buildReplacements, h1, h2, h3, h4, h5, h6, joinIfTruthy,
      pyStrOfOptStr, pyOrEmpty, firstIntent]
  · intro u c i cs is h1 h2
    simp [buildReplacements, h1, h2, joinIfTruthy, firstIntent]

/-- Witness for the amended C9 theorem at two concrete requests. -/
theorem C9_replacements_witness :
    buildReplacements c9Req =
      [("from_location", "Delhi"), ("specific_location", ""),
       ("categories", ""), ("days", "3"), ("currency", "INR"),
       ("budget", "None"), ("intent", ""), ("group", ""), ("stay", ""),
       ("notes", ""), ("trip_type", "general")] ∧
    buildReplacements
        { c9Req with
          categories := some ["food", "art"]
          intent := some ["relax"] } =
      [("from_location", "Delhi"), ("specific_location", "food, art"),
       ("categories", "food, art"), ("days", "3"), ("currency", "INR"),
       ("budget", "None"), ("intent", "relax"), ("group", ""), ("stay", ""),
       ("notes", ""), ("trip_type", "relax")] := by
  constructor
  · rw [C9_replacements_stringified.1 c9Req rfl rfl rfl rfl rfl rfl]
    decide
  · rw [C9_replacements_stringified.2 _ "food" "relax" ["art"] [] rfl rfl]
    decide

/-! ## Parsed JSON values and the Result Normalizer (generate_itinerary)

Values produced by json.loads: objects are association lists with unique
keys in insertion order, numbers are integers (fractional values play no
role in any claim).  The Python dict and sequence operations used by the
normalizer are modelled with their dynamic failure modes; TypeError and
AttributeError message texts are abridged but kept distinct. -/

/-- A parsed JSON value. -/
inductive Json where
  | null : Json
  | bool (b : Bool) : Json
  | num (n : Int) : Json
  | str (s : String) : Json
  | arr (l : List Json) : Json
  | obj (l : List (String × Json)) : Json

/-- Dictionary lookup (first matching key; keys are unique after
json.loads). -/
def getKey (l : List (String × Json)) (k : String) : Option Json :=
  match l with
  | [] => none
  | (k2, v) :: r => if k2 = k then some v else getKey r k

/-- Dictionary assignment: replace in place when present, else append. -/
def setKey (l : List (String × Json)) (k : String) (v : Json) : List (String × Json) :=
  match l with
  | [] => [(k, v)]
  | (k2, v2) :: r => if k2 = k then (k2, v) :: r else (k2, v2) :: setKey r k v

/-- Python truthiness of a parsed value. -/
def truthy : Json → Bool
  | .null => false
  | .bool b => b
  | .num n => n != 0
  | .str s => !s.data.isEmpty
  | .arr l => !l.isEmpty
  | .obj l => !l.isEmpty

/-- Python equality of a string against a parsed value. -/
def eqStrJson (s : String) : Json → Bool
  | .str t => s == t
  | _ => false

/-- Python membership test of a string needle: key membership for dicts,
element equality for lists, substring test for strings, TypeError
otherwise. -/
def pyContains (d : Json) (s : String) : Except String Bool :=
  match d with
  | .obj l => .ok (getKey l s).isSome
  | .arr l => .ok (l.any (eqStrJson s))
  | .str t => .ok (containsPat s.data t.data)
  | _ => .error "TypeError: argument of type is not iterable"

/-- Python subscript with a string key. -/
def pySubscript (d : Json) (k : String) : Except String Json :=
  match d with
  | .obj l =>
    (match getKey l k with
     | some v => .ok v
     | none => .error ("KeyError: " ++ k))
  | .arr _ => .error "TypeError: list indices must be integers or slices, not str"
  | .str _ => .error "TypeError: string indices must be integers"
  | _ => .error "TypeError: object is not subscriptable"

/-- Python subscript assignment with a string key. -/
def pySetKey (d : Json) (k : String) (v : Json) : Except String Json :=
  match d with
  | .obj l => .ok (.obj (setKey l k v))
  | .str _ => .error "TypeError: str object does not support item assignment"
  | .arr _ => .error "TypeError: list indices must be integers, not str"
  | _ => .error "TypeError: object does not support item assignment"

/-- Python iteration: lists yield elements, strings yield one-character
strings, dicts yield their keys, TypeError otherwise. -/
def pyIter (d : Json) : Except String (List Json) :=
  match d with
  | .arr l => .ok l
  | .str s => .ok (s.data.map (fun c => Json.str (String.mk [c])))
  | .obj l => .ok (l.map (fun kv => Json.str kv.1))
  | _ => .error "TypeError: object is not iterable"

/-- Characters urllib.parse.quote never encodes. -/
def alwaysSafe (c : Char) : Bool :=
  c.isAlpha || c.isDigit || c == '_' || c == '.' || c == '-' || c == '~'

/-- Uppercase hexadecimal digit. -/
def hexDigitChar (n : Nat) : Char :=
  if n < 10 then Char.ofNat (48 + n) else Char.ofNat (55 + n)

/-- UTF-8 encoding of one character. -/
def utf8Bytes (c : Char) : List Nat :=
  let n := c.toNat
  if n < 128 then [n]
  else if n < 2048 then [192 + n / 64, 128 + n % 64]
  else if n < 65536 then [224 + n / 4096, 128 + (n / 64) % 64, 128 + n % 64]
  else [240 + n / 262144, 128 + (n / 4096) % 64, 128 + (n / 64) % 64, 128 + n % 64]

/-- Percent-encoding of one character over its UTF-8 bytes. -/
def pctEncode (c : Char) : Chars :=
  (utf8Bytes c).flatMap (fun b => ['%', hexDigitChar (b / 16), hexDigitChar (b % 16)])

/-- urllib.parse.quote_plus: safe characters pass through, space becomes
plus, everything else is percent-encoded. -/
def quotePlus (l : Chars) : Chars :=
  l.flatMap (fun c =>
    if alwaysSafe c then [c] else if c == ' ' then ['+'] else pctEncode c)

/-- The canonical map host prefix tested by startswith. -/
def mapsRoot : Chars := "https://www.google.com/maps/".data

/-- The fixed search-URL template of generate_google_maps_link. -/
def queryBase : Chars := "https://www.google.com/maps/search/?api=1&query=".data

/-- generate_google_maps_link. -/
def googleMapsLink (t : String) : String := String.mk (queryBase ++ quotePlus t.data)

/-- Synthesis of a map link from the activity title (the shared tail of
both rewrite branches of the activity loop). -/
def synthLink (a : Json) : Except String Json :=
  match pySubscript a "title" with
  | .error e => .error e
  | .ok (.str ts) => pySetKey a "map_link" (.str (googleMapsLink ts))
  | .ok _ => .error "TypeError: quote expected str"

/-- The per-activity normalization: synthesize a link when the map_link
key is absent or falsy, or when the present string does not start with
the canonical host prefix; keep the activity otherwise. -/
def normalizeActivity (a : Json) : Except String Json :=
  match pyContains a "map_link" with
  | .error e => .error e
  | .ok c =>
    if c then
      match pySubscript a "map_link" with
      | .error e => .error e
      | .ok v =>
        if !truthy v then synthLink a
        else
          match v with
          | .str s =>
            if !(mapsRoot.isPrefixOf s.data) then synthLink a else .ok a
          | _ => .error "AttributeError: object has no attribute startswith"
    else synthLink a

/-- Error-propagating map over a list, stopping at the first failure,
exactly as the Python for loop raises out of generate_itinerary. -/
def mapMExcept (f : Json → Except String Json) : List Json → Except String (List Json)
  | [] => .ok []
  | x :: r =>
    match f x with
    | .error e => .error e
    | .ok y =>
      (match mapMExcept f r with
       | .error e => .error e
       | .ok ys => .ok (y :: ys))

/-- The missing-day-number validation error. -/
def dayNumMsg : String := "Each day must have a \x27day\x27 number"

/-- The per-day normalization: default a missing activities field to the
empty list, require a day field, then normalize each activity.  When the
activities value is a list it is rebuilt from the normalized activities;
a non-list iterable only survives when empty, in which case the day is
returned unchanged, as the in-place Python loop does. -/
def normalizeDay (d : Json) : Except String Json :=
  match pyContains d "activities" with
  | .error e => .error e
  | .ok cAct =>
    match (if cAct then Except.ok d else pySetKey d "activities" (Json.arr [])) with
    | .error e => .error e
    | .ok d1 =>
      match pyContains d1 "day" with
      | .error e => .error e
      | .ok cDay =>
        if !cDay then .error dayNumMsg
        else
          match pySubscript d1 "activities" with
          | .error e => .error e
          | .ok acts =>
            match acts with
            | .arr l =>
              (match mapMExcept normalizeActivity l with
               | .error e => .error e
               | .ok l2 => pySetKey d1 "activities" (.arr l2))
            | other =>
              (match pyIter other with
               | .error e => .error e
               | .ok items =>
                 match mapMExcept normalizeActivity items with
                 | .error e => .error e
                 | .ok _ => .ok d1)

/-- The missing-days validation error. -/
def missingDaysMsg : String := "Response missing \x27days\x27 array"

/-- The days-not-an-array validation error. -/
def daysNotArrMsg : String := "\x27days\x27 should be an array"

/-- The structure validation and normalization of generate_itinerary after
parsing: wrap when the days membership test fails on a list, require a
days key otherwise, require the days value to be a list, then normalize
every day. -/
def normalizeData (data : Json) : Except String Json :=
  match pyContains data "days" with
  | .error e => .error e
  | .ok c =>
    match (if c then Except.ok data
           else
             match data with
             | .arr _ => Except.ok (Json.obj [("days", data)])
             | _ => Except.error missingDaysMsg) with
    | .error e => .error e
    | .ok d1 =>
      match pySubscript d1 "days" with
      | .error e => .error e
      | .ok dv =>
        match dv with
        | .arr ds =>
          (match mapMExcept normalizeDay ds with
           | .error e => .error e
           | .ok ds2 => pySetKey d1 "days" (.arr ds2))
        | _ => .error daysNotArrMsg

/-- Projection used to compare failure outcomes. -/
def errMsg : Except String Json → Option String
  | .error e => some e
  | .ok _ => none

theorem getKey_setKey_self (l : List (String × Json)) (k : String) (v : Json) :
    getKey (setKey l k v) k = some v := by
  induction l with
  | nil => simp [setKey, getKey]
  | cons kv r ih =>
    obtain ⟨k2, v2⟩ := kv
    rw [setKey]
    by_cases h : k2 = k
    · rw [if_pos h, getKey, if_pos h]
    · rw [if_neg h, getKey, if_neg h]
      exact ih

theorem getKey_setKey_ne {k k2 : String} (l : List (String × Json)) (v : Json)
    (h : k ≠ k2) : getKey (setKey l k v) k2 = getKey l k2 := by
  induction l with
  | nil => simp [setKey, getKey, h]
  | cons kv r ih =>
    obtain ⟨k3, v3⟩ := kv
    rw [setKey]
    by_cases h3 : k3 = k
    · subst h3
      rw [if_pos rfl]
      simp only [getKey]
      rw [if_neg h, if_neg h]
    · rw [if_neg h3]
      simp only [getKey]
      by_cases h4 : k3 = k2
      · rw [if_pos h4, if_pos h4]
      · rw [if_neg h4, if_neg h4]
        exact ih

theorem mapMExcept_mem (f : Json → Except String Json) :
    ∀ (l l2 : List Json), mapMExcept f l = .ok l2 →
      ∀ y ∈ l2, ∃ x ∈ l, f x = .ok y := by
  intro l
  induction l with
  | nil =>
    intro l2 h y hy
    simp [mapMExcept] at h
    subst h
    simp at hy
  | cons x r ih =>
    intro l2 h y hy
    rw [mapMExcept] at h
    split at h
    · exact absurd h (by simp)
    next hx =>
      split at h
      · exact absurd h (by simp)
      next hr =>
        simp only [Except.ok.injEq] at h
        subst h
        rcases List.mem_cons.mp hy with hy | hy
        · exact ⟨x, by simp, hy ▸ hx⟩
        · obtain ⟨x2, hm, hfx⟩ := ih _ hr y hy
          exact ⟨x2, by simp [hm], hfx⟩

theorem isPrefixOf_append_self (l r : Chars) : l.isPrefixOf (l ++ r) = true := by
  induction l with
  | nil => cases r <;> rfl
  | cons c t ih => simp [List.isPrefixOf, ih]

theorem googleMapsLink_data (t : String) :
    (googleMapsLink t).data = queryBase ++ quotePlus t.data := rfl

theorem mapsRoot_pref (t : String) :
    mapsRoot.isPrefixOf (googleMapsLink t).data = true := by
  rw [googleMapsLink_data]
  rw [show queryBase = mapsRoot ++ "search/?api=1&query=".data from rfl]
  rw [List.append_assoc]
  exact isPrefixOf_append_self _ _

theorem link_ne_nil (t : String) : (googleMapsLink t).data ≠ [] := by
  rw [googleMapsLink_data]
  intro h
  have h2 := congrArg List.length h
  rw [List.length_append] at h2
  rw [show queryBase.length = 48 from rfl] at h2
  simp at h2

/-- The map-link invariant on one activity: it is an object whose map_link
is a nonempty string starting with the canonical host prefix. -/
def goodLink (a : Json) : Prop :=
  ∃ al s, a = Json.obj al ∧ getKey al "map_link" = some (.str s) ∧
    s.data ≠ [] ∧ mapsRoot.isPrefixOf s.data = true

theorem synthLink_good {a a2 : Json} (h : synthLink a = .ok a2) : goodLink a2 := by
  unfold synthLink at h
  split at h
  · exact absurd h (by simp)
  next ts hsub =>
    unfold pySetKey at h
    split at h
    next l =>
      simp only [Except.ok.injEq] at h
      subst h
      exact ⟨setKey l "map_link" (.str (googleMapsLink ts)), googleMapsLink ts, rfl,
        getKey_setKey_self l _ _, link_ne_nil ts, mapsRoot_pref ts⟩
    all_goals exact absurd h (by simp)
  · exact absurd h (by simp)

theorem normalizeActivity_good : ∀ {a a2 : Json},
    normalizeActivity a = .ok a2 → goodLink a2 := by
  intro a a2 h
  unfold normalizeActivity at h
  split at h
  · exact absurd h (by simp)
  next c hc =>
    split at h
    · split at h
      · exact absurd h (by simp)
      next v hv =>
        split at h
        · exact synthLink_good h
        next htr =>
          split at h
          next s =>
            split at h
            · exact synthLink_good h
            next hpref =>
              simp only [Except.ok.injEq] at h
              subst h
              unfold pySubscript at hv
              split at hv
              next l =>
                split at hv
                next v2 hget =>
                  simp only [Except.ok.injEq] at hv
                  subst hv
                  refine ⟨l, s, rfl, hget, ?_, ?_⟩
                  · have htr2 : truthy (Json.str s) = true := by
                      revert htr
                      cases truthy (Json.str s) <;> simp
                    rw [show truthy (Json.str s) = !s.data.isEmpty from rfl] at htr2
                    intro hnil
                    rw [hnil] at htr2
                    simp at htr2
                  · revert hpref
                    cases mapsRoot.isPrefixOf s.data <;> simp
                · exact absurd hv (by simp)
              all_goals exact absurd hv (by simp)
          · exact absurd h (by simp)
    · exact synthLink_good h

theorem normalizeDay_acts : ∀ {d d2 : Json}, normalizeDay d = .ok d2 →
    ∀ (l2 : List (String × Json)) (acts : List Json), d2 = .obj l2 →
    getKey l2 "activities" = some (.arr acts) → ∀ a ∈ acts, goodLink a := by
  intro d d2 h l2 acts h2 h3 a ha
  subst h2
  unfold normalizeDay at h
  split at h
  · exact absurd h (by simp)
  next cAct hcAct =>
    split at h
    · exact absurd h (by simp)
    next d1 hd1 =>
      split at h
      · exact absurd h (by simp)
      next cDay hcDay =>
        split at h
        · exact absurd h (by simp)
        next =>
          split at h
          · exact absurd h (by simp)
          next acts0 hacts0 =>
            split at h
            next lacts =>
              split at h
              · exact absurd h (by simp)
              next l2acts hmap =>
                unfold pySetKey at h
                split at h
                next l1 =>
                  simp only [Except.ok.injEq, Json.obj.injEq] at h
                  rw [← h] at h3
                  rw [getKey_setKey_self] at h3
                  simp only [Option.some.injEq, Json.arr.injEq] at h3
                  subst h3
                  obtain ⟨x, hx, hfx⟩ := mapMExcept_mem _ _ _ hmap a ha
                  exact normalizeActivity_good hfx
                all_goals exact absurd h (by simp)
            next hnotarr =>
              split at h
              · exact absurd h (by simp)
              next items hitems =>
                split at h
                · exact absurd h (by simp)
                next lx hmap2 =>
                  simp only [Except.ok.injEq] at h
                  subst h
                  simp only [pySubscript] at hacts0
                  rw [h3] at hacts0
                  simp only [Except.ok.injEq] at hacts0
                  exact absurd hacts0.symm (hnotarr acts)

/-- The normalized Eiffel Tower activity. -/
def eiffelAct : Json :=
  .obj [("title", .str "Eiffel Tower"), ("description", .str "Visit"),
    ("map_link", .str "https://www.google.com/maps/search/?api=1&query=Eiffel+Tower")]

/-- The normalized Eiffel Tower day. -/
def eiffelDay : Json :=
  .obj [("day", .num 1), ("activities", .arr [eiffelAct])]

/-- A parsed itinerary with one day and one activity that has a title and
no map_link. -/
def eiffelInput : Json :=
  .obj [("days", .arr [.obj [("day", .num 1),
    ("activities", .arr [.obj [("title", .str "Eiffel Tower"),
      ("description", .str "Visit")]])]])]

/-- The normalized form of eiffelInput: the synthesized map link is
appended to the activity. -/
def eiffelOutput : Json :=
  .obj [("days", .arr [.obj [("day", .num 1),
    ("activities", .arr [.obj [("title", .str "Eiffel Tower"),
      ("description", .str "Visit"),
      ("map_link", .str "https://www.google.com/maps/search/?api=1&query=Eiffel+Tower")]])]])]

/-- Claim C2: whenever normalization succeeds, every activity of every day
of the result is an object whose map_link is a nonempty string starting
with the canonical map prefix; an activity without a map_link key gets a
link synthesized from its title by percent-encoding; and the Eiffel Tower
activity normalizes to exactly the claimed URL. -/
theorem C2_map_link_invariant :
    (∀ (d d2 : Json) (ld : List (String × Json)) (daysl : List Json),
      normalizeData d = .ok d2 → d2 = .obj ld →
      getKey ld "days" = some (.arr daysl) →
      ∀ day ∈ daysl, ∀ (dl : List (String × Json)) (actsl : List Json),
        day = .obj dl → getKey dl "activities" = some (.arr actsl) →
        ∀ a ∈ actsl, goodLink a) ∧
    (∀ (al : List (String × Json)) (t : String),
      getKey al "map_link" = none → getKey al "title" = some (.str t) →
      normalizeActivity (.obj al) =
        .ok (.obj (setKey al "map_link" (.str (googleMapsLink t))))) ∧
    normalizeData eiffelInput = .ok eiffelOutput := by
  refine ⟨?_, ?_, ?_⟩
  · intro d d2 ld daysl h hobj hdays day hdy dl actsl hdobj hacts a ha
    subst hobj
    unfold normalizeData at h
    split at h
    · exact absurd h (by simp)
    next c hc =>
      split at h
      · exact absurd h (by simp)
      next d1 hd1 =>
        split at h
        · exact absurd h (by simp)
        next dv hdv =>
          split at h
          next ds =>
            split at h
            · exact absurd h (by simp)
            next ds2 hmap =>
              unfold pySetKey at h
              split at h
              next l1 =>
                simp only [Except.ok.injEq, Json.obj.injEq] at h
                rw [← h] at hdays
                rw [getKey_setKey_self] at hdays
                simp only [Option.some.injEq, Json.arr.injEq] at hdays
                subst hdays
                obtain ⟨d0, hd0, hf⟩ := mapMExcept_mem _ _ _ hmap day hdy
                exact normalizeDay_acts hf dl actsl hdobj hacts a ha
              all_goals exact absurd h (by simp)
          · exact absurd h (by simp)
  · intro al t h1 h2
    simp [normalizeActivity, pyContains, h1, synthLink, pySubscript, h2, pySetKey]
  · rfl

/-- Witness for C2: the invariant holds of the concrete normalized Eiffel
Tower activity, and the per-activity synthesis equation instantiates to
the claimed URL. -/
theorem C2_map_link_witness :
    goodLink eiffelAct ∧
    normalizeActivity (.obj [("title", .str "Eiffel Tower")]) =
      .ok (.obj [("title", .str "Eiffel Tower"),
        ("map_link", .str "https://www.google.com/maps/search/?api=1&query=Eiffel+Tower")]) := by
  constructor
  · exact C2_map_link_invariant.1 eiffelInput eiffelOutput
      [("days", Json.arr [eiffelDay])] [eiffelDay]
      C2_map_link_invariant.2.2 rfl rfl
      eiffelDay (by simp)
      [("day", Json.num 1), ("activities", Json.arr [eiffelAct])] [eiffelAct]
      rfl rfl
      eiffelAct (by simp)
  · exact C2_map_link_invariant.2.1 [("title", .str "Eiffel Tower")] "Eiffel Tower" rfl rfl

/-- Claim C5 counterexample: the claim says a top-level array is wrapped
as an object under a days key.  An array containing the string days makes
the membership test succeed, so the code skips the wrap and fails with a
TypeError at the list subscript, while the wrapped object fails
differently; the two runs are observably distinct, refuting the
unconditional wrapping. -/
theorem C5_array_wrap_counterexample :
    errMsg (normalizeData (.arr [.str "days"])) =
      some "TypeError: list indices must be integers or slices, not str" ∧
    errMsg (normalizeData (.obj [("days", .arr [.str "days"])])) =
      some "TypeError: str object does not support item assignment" ∧
    normalizeData (.arr [.str "days"]) ≠
      normalizeData (.obj [("days", .arr [.str "days"])]) := by
  refine ⟨rfl, rfl, ?_⟩
  intro h
  exact absurd (congrArg errMsg h) (by decide)

/-- Claim C5 (amended): a top-level array is wrapped as an object under a
days key exactly when it does not contain the string days as an element
(the Python membership test applied to a list); an object without a days
key fails with the missing-days error; an object whose days value is not
an array fails with the not-an-array error.  No path returns an empty
result silently. -/
theorem C5_days_validation :
    (∀ l : List Json, l.any (eqStrJson "days") = false →
      normalizeData (.arr l) = normalizeData (.obj [("days", .arr l)])) ∧
    (∀ lx : List (String × Json), getKey lx "days" = none →
      normalizeData (.obj lx) = .error missingDaysMsg) ∧
    (∀ (lx : List (String × Json)) (v : Json), getKey lx "days" = some v →
      (∀ a : List Json, v ≠ .arr a) →
      normalizeData (.obj lx) = .error daysNotArrMsg) := by
  refine ⟨?_, ?_, ?_⟩
  · intro l h
    simp [normalizeData, pyContains, h, getKey, pySubscript]
  · intro lx h
    simp [normalizeData, pyContains, h]
  · intro lx v h hv
    cases v with
    | arr a => exact absurd rfl (hv a)
    | null => simp [normalizeData, pyContains, h, pySubscript]
    | bool b => simp [normalizeData, pyContains, h, pySubscript]
    | num n => simp [normalizeData, pyContains, h, pySubscript]
    | str s => simp [normalizeData, pyContains, h, pySubscript]
    | obj o => simp [normalizeData, pyContains, h, pySubscript]

/-- Witness for the amended C5 theorem at concrete parsed values. -/
theorem C5_days_validation_witness :
    normalizeData (.arr []) = normalizeData (.obj [("days", .arr [])]) ∧
    normalizeData (.obj [("hello", .num 1)]) = .error missingDaysMsg ∧
    normalizeData (.obj [("days", .num 5)]) = .error daysNotArrMsg :=
  ⟨C5_days_validation.1 [] rfl,
   C5_days_validation.2.1 [("hello", .num 1)] rfl,
   C5_days_validation.2.2 [("days", .num 5)] (.num 5) rfl
     (fun _ hh => Json.noConfusion hh)⟩

/-- Claim C6: for an object day entry, a missing day field makes the whole
normalization fail with the missing-day-number error (regardless of the
activities field), while a missing activities field alone is defaulted to
the empty list, preserving the day field; the closed conjunct shows the
failure escalating through the whole operation. -/
theorem C6_day_entry_normalization :
    (∀ dl : List (String × Json), getKey dl "day" = none →
      normalizeDay (.obj dl) = .error dayNumMsg) ∧
    (∀ (dl : List (String × Json)) (d2 : Json),
      getKey dl "activities" = none → normalizeDay (.obj dl) = .ok d2 →
      ∃ l2, d2 = .obj l2 ∧ getKey l2 "activities" = some (.arr []) ∧
        getKey l2 "day" = getKey dl "day") ∧
    normalizeData (.obj [("days", .arr [.obj [("activities", .arr [])]])]) =
      .error dayNumMsg := by
  have hne : ("activities" : String) ≠ "day" := by decide
  refine ⟨?_, ?_, ?_⟩
  · intro dl h
    cases hga : getKey dl "activities" with
    | some v =>
      simp [normalizeDay, pyContains, hga, h]
    | none =>
      have hg := @getKey_setKey_ne "activities" "day" dl (Json.arr []) hne
      simp [normalizeDay, pyContains, hga, pySetKey, hg, h]
  · intro dl d2 hact hok
    have hg := @getKey_setKey_ne "activities" "day" dl (Json.arr []) hne
    cases hd : getKey dl "day" with
    | none =>
      simp [normalizeDay, pyContains, hact, pySetKey, hg, hd] at hok
    | some v =>
      simp [normalizeDay, pyContains, hact, pySetKey, pySubscript, hg, hd,
        getKey_setKey_self, mapMExcept] at hok
      refine ⟨setKey (setKey dl "activities" (.arr [])) "activities" (.arr []), ?_, ?_, ?_⟩
      · exact hok.symm
      · exact getKey_setKey_self _ _ _
      · rw [getKey_setKey_ne _ _ hne, getKey_setKey_ne _ _ hne]
        exact hd
  · rfl

/-- Witness for C6 at concrete day entries. -/
theorem C6_day_entry_witness :
    normalizeDay (.obj [("activities", .arr [])]) = .error dayNumMsg ∧
    (∃ l2, (Json.obj [("day", Json.num 1), ("activities", Json.arr [])] : Json) = .obj l2 ∧
      getKey l2 "activities" = some (.arr []) ∧
      getKey l2 "day" = getKey [("day", Json.num 1)] "day") :=
  ⟨C6_day_entry_normalization.1 [("activities", .arr [])] rfl,
   C6_day_entry_normalization.2.1 [("day", .num 1)]
     (.obj [("day", .num 1), ("activities", .arr [])]) rfl rfl⟩

/-! ## Secondary extraction in generate_itinerary (lines 340 to 352)

When the locator output does not start with an opening brace after
stripping, the endpoint re-searches the raw text with the greedy DOTALL
regex from an opening brace to a closing brace; if the candidate still
does not start with an opening brace, a greedy array-of-objects regex is
tried and its match wrapped under a days key. -/

/-- Whether a closing brace occurs. -/
def hasClose : Chars → Bool
  | [] => false
  | c :: r => c == '}' || hasClose r

/-- Length of the prefix of the input up to and including its last
closing brace. -/
def lastBraceLen : Chars → Option Nat
  | [] => none
  | c :: rest =>
    match (lastBraceLen rest).map (· + 1) with
    | some n => some n
    | none => if c == '}' then some 1 else none

/-- The regex search for an opening brace, any characters, a closing
brace (DOTALL, greedy): the match runs from the first opening brace to
the last closing brace after it, when both exist. -/
def search1 : Chars → Option Chars
  | [] => none
  | c :: r =>
    if c == '{' then (lastBraceLen r).map (fun n => '{' :: r.take n)
    else search1 r

/-- Length of the prefix of the input through the last closing brace that
is followed, after optional whitespace, by a closing bracket; the length
includes that bracket. -/
def lastCloseLen : Chars → Option Nat
  | [] => none
  | c :: rest =>
    match (lastCloseLen rest).map (· + 1) with
    | some n => some n
    | none =>
      if c == '}' then
        match rest.dropWhile isPyWs with
        | ']' :: _ => some ((rest.takeWhile isPyWs).length + 2)
        | _ => none
      else none

/-- The greedy array-of-objects regex search: an opening bracket,
whitespace, an opening brace, any characters, then greedily the last
closing brace followed by whitespace and a closing bracket. -/
def search2 : Chars → Option Chars
  | [] => none
  | c :: r =>
    if c == '[' then
      match r.dropWhile isPyWs with
      | '{' :: r2 =>
        (match lastCloseLen r2 with
         | some n => some ('[' :: (r.takeWhile isPyWs ++ '{' :: r2.take n))
         | none => search2 r)
      | _ => search2 r
    else search2 r

/-- The guard json_text.strip().startswith of the extraction fallbacks. -/
def startsBrace (l : Chars) : Bool :=
  match pyStripChars l with
  | '{' :: _ => true
  | _ => false

/-- The json_text computation of generate_itinerary: the locator output,
then the object regex on the raw text when the candidate does not start
with an opening brace, then the wrapped array regex when it still does
not. -/
def pickJsonText (raw : Chars) : Chars :=
  let jt1 := extractJson raw
  let jt2 := if !startsBrace jt1 then
               match search1 raw with
               | some m => m
               | none => jt1
             else jt1
  if !startsBrace jt2 then
    match search2 raw with
    | some m => "\x7b\"days\": ".data ++ m ++ "\x7d".data
    | none => jt2
  else jt2

/-- Whether some opening brace is followed by some closing brace. -/
def bracePair : Chars → Bool
  | [] => false
  | c :: r => (c == '{' && hasClose r) || bracePair r

theorem lastBraceLen_none {r : Chars} (h : lastBraceLen r = none) :
    hasClose r = false := by
  induction r with
  | nil => rfl
  | cons c rest ih =>
    rw [lastBraceLen] at h
    split at h
    · exact absurd h (by simp)
    next hm =>
      rw [Option.map_eq_none'] at hm
      split at h
      · exact absurd h (by simp)
      next hc =>
        rw [hasClose]
        simp [hc, ih hm]

theorem hasClose_false_noPair {l : Chars} (h : hasClose l = false) :
    bracePair l = false := by
  induction l with
  | nil => rfl
  | cons c r ih =>
    rw [hasClose] at h
    simp only [Bool.or_eq_false_iff] at h
    rw [bracePair]
    simp [h.2, ih h.2]

theorem search1_none_noPair {l : Chars} (h : search1 l = none) :
    bracePair l = false := by
  induction l with
  | nil => rfl
  | cons c r ih =>
    rw [search1] at h
    rw [bracePair]
    by_cases hc : (c == '{') = true
    · rw [if_pos hc] at h
      rw [Option.map_eq_none'] at h
      have hr := lastBraceLen_none h
      simp [hr, hasClose_false_noPair hr]
    · rw [if_neg hc] at h
      simp only [Bool.not_eq_true] at hc
      simp [hc, ih h]

theorem lastCloseLen_some_hasClose {l : Chars} {n : Nat}
    (h : lastCloseLen l = some n) : hasClose l = true := by
  induction l generalizing n with
  | nil => exact absurd h (by simp [lastCloseLen])
  | cons c rest ih =>
    rw [lastCloseLen] at h
    split at h
    next n2 hm =>
      rw [Option.map_eq_some'] at hm
      obtain ⟨n3, hn3, -⟩ := hm
      rw [hasClose]
      simp [ih hn3]
    next hm =>
      split at h
      next hc =>
        rw [hasClose]
        simp [hc]
      · exact absurd h (by simp)

theorem bracePair_append_open {r2 : Chars} (x : Chars) (h : hasClose r2 = true) :
    bracePair (x ++ '{' :: r2) = true := by
  induction x with
  | nil => simp [bracePair, h]
  | cons c t ih => simp [bracePair, ih]

theorem search2_some_pair {l m : Chars} (h : search2 l = some m) :
    bracePair l = true := by
  induction l with
  | nil => exact absurd h (by simp [search2])
  | cons c r ih =>
    rw [search2] at h
    split at h
    · split at h
      next r2 hdrop =>
        split at h
        next n hn =>
          have hr : bracePair r = true := by
            have hc := lastCloseLen_some_hasClose hn
            have := bracePair_append_open (r.takeWhile isPyWs) hc
            rw [← hdrop] at this
            rw [List.takeWhile_append_dropWhile] at this
            exact this
          rw [bracePair]
          simp [hr]
        next => rw [bracePair]; simp [ih h]
      next => rw [bracePair]; simp [ih h]
    · rw [bracePair]; simp [ih h]

theorem search1_none_search2_none {l : Chars} (h : search1 l = none) :
    search2 l = none := by
  cases h2 : search2 l with
  | none => rfl
  | some m =>
    have hp := search2_some_pair h2
    rw [search1_none_noPair h] at hp
    exact absurd hp (by simp)

theorem search1_shape {l m : Chars} (h : search1 l = some m) :
    ∃ t, m = '{' :: t := by
  induction l with
  | nil => exact absurd h (by simp [search1])
  | cons c r ih =>
    rw [search1] at h
    split at h
    · rw [Option.map_eq_some'] at h
      obtain ⟨n, -, hm⟩ := h
      exact ⟨r.take n, hm.symm⟩
    · exact ih h

theorem dropWhile_append_single {c : Char} (ys : Chars) (h : isPyWs c = false) :
    (ys ++ [c]).dropWhile isPyWs = ys.dropWhile isPyWs ++ [c] := by
  induction ys with
  | nil => simp [List.dropWhile, h]
  | cons y t ih =>
    cases hy : isPyWs y with
    | true => simp [List.dropWhile_cons, hy, ih]
    | false => simp [List.dropWhile_cons, hy]

theorem pyStripChars_cons {c : Char} (t : Chars) (h : isPyWs c = false) :
    pyStripChars (c :: t) = c :: (t.reverse.dropWhile isPyWs).reverse := by
  unfold pyStripChars
  rw [List.dropWhile_cons, if_neg (by simp [h])]
  rw [List.reverse_cons, dropWhile_append_single _ h, List.reverse_append]
  rfl

theorem startsBrace_open (t : Chars) : startsBrace ('{' :: t) = true := by
  rw [startsBrace, pyStripChars_cons t (by decide)]
  rfl

/-- The raw text for the closed C10 conjuncts: the locator starts at the
bracket and returns the inner array, while the object regex then grabs
from the first brace to the last brace of the raw text. -/
def c10Raw : Chars := "\x7b\"a\": [1]\x7d t \x7d".data

/-- Claim C10: whenever the locator candidate does not start with an
opening brace, the endpoint replaces it by the greedy first-brace to
last-brace regex match over the raw text when one exists; the wrapped
array branch only fires when the object regex found nothing, which forces
the array regex to find nothing as well, so the candidate then stays the
locator output; and on a concrete raw text the parsed candidate differs
from the locator output. -/
theorem C10_secondary_extraction :
    (∀ raw : Chars, startsBrace (extractJson raw) = true →
      pickJsonText raw = extractJson raw) ∧
    (∀ raw m : Chars, startsBrace (extractJson raw) = false →
      search1 raw = some m → pickJsonText raw = m) ∧
    (∀ raw : Chars, search1 raw = none →
      search2 raw = none ∧ pickJsonText raw = extractJson raw) ∧
    pickJsonText c10Raw = c10Raw ∧
    extractJson c10Raw = "[1]".data := by
  refine ⟨?_, ?_, ?_, ?_, ?_⟩
  · intro raw h
    simp [pickJsonText, h]
  · intro raw m h hs
    obtain ⟨t, ht⟩ := search1_shape hs
    subst ht
    simp [pickJsonText, h, hs, startsBrace_open]
  · intro raw h
    have h2 := search1_none_search2_none h
    refine ⟨h2, ?_⟩
    simp [pickJsonText, h, h2]
  · decide
  · decide

/-- Witness for C10: the secondary extraction applies at the concrete raw
text whose locator output starts at a bracket. -/
theorem C10_secondary_witness : pickJsonText c10Raw = c10Raw :=
  C10_secondary_extraction.2.1 c10Raw c10Raw (by decide) (by decide)

end WanderGenie
